import Mathlib

/-!
Verification of the deepseek-platform execution core against its
natural-language specification.  Python strings are embedded as `List Char`,
filesystem state as explicit structures, and each stateful operation as a
pure function (fallible operations return `Except`).
-/

namespace DeepseekPlatform

/-! ### Python string primitives over `List Char` -/

/-- Python `str.strip()` whitespace set (ASCII part used by this code base). -/
def isPySpace (c : Char) : Bool :=
  c == ' ' || c == '\t' || c == '\n' || c == '\r' || c == '\x0b' || c == '\x0c'

/-- Python `str.strip()`: drop leading and trailing whitespace. -/
def pyStrip (l : List Char) : List Char :=
  ((l.dropWhile isPySpace).reverse.dropWhile isPySpace).reverse

/-- Python `str.endswith(pat)`. -/
def pyEndsWith (s pat : List Char) : Bool :=
  decide (pat <:+ s)

/-- Python slice `s[a:b]` (with the nonnegative indices used by the parser). -/
def pySlice (s : List Char) (a b : Nat) : List Char :=
  (s.take b).drop a

/-- Python `s.find(pat, start)`: least index `j ≥ start` where `pat` occurs
inside `s`, as an `Option` (Python's `-1` becomes `none`). -/
def pyFind (s pat : List Char) (start : Nat) : Option Nat :=
  (List.range (s.length + 1)).find?
    (fun j => decide (start ≤ j ∧ j + pat.length ≤ s.length ∧ pat <+: s.drop j))

/-- Python `s.find(pat, start, stop)`: the occurrence must fit inside
`s[start:stop]`. -/
def pyFindIn (s pat : List Char) (start stop : Nat) : Option Nat :=
  (List.range (s.length + 1)).find?
    (fun j => decide (start ≤ j ∧ j + pat.length ≤ min stop s.length ∧ pat <+: s.drop j))

/-! ### Ordered association lists (Python `dict` with insertion order) -/

/-- Python `d[k] = v`: replace in place when the key exists, else append. -/
def aupsert {α β : Type} [DecidableEq α] : List (α × β) → α → β → List (α × β)
  | [], k, v => [(k, v)]
  | e :: rest, k, v => if e.1 = k then (k, v) :: rest else e :: aupsert rest k v

/-- Python `d.get(k)`. -/
def alookup {α β : Type} [DecidableEq α] : List (α × β) → α → Option β
  | [], _ => none
  | e :: rest, k => if e.1 = k then some e.2 else alookup rest k

/-- Python `del d[k]` (dict keys are unique, so dropping every entry at the
key is the same removal). -/
def afilter {α β : Type} [DecidableEq α] : List (α × β) → α → List (α × β)
  | [], _ => []
  | e :: rest, k => if e.1 = k then afilter rest k else e :: afilter rest k

/-! ### Message parser (`src/conversation/parse_assistant_message.py`) -/

/-- `AssistantMessageContent`: tagged union of `TextContent` and `ToolUse`
(file `parse_assistant_message.py`, classes `TextContent` / `ToolUse`). -/
inductive AssistantMessageContent : Type
  | TextContent (content : List Char) (part : Bool)
  | ToolUse (name : List Char) (params : List (List Char × List Char)) (part : Bool)
deriving DecidableEq, Repr

/-- Inner parameter scan of `parse_assistant_message` (the
`while param_start < tool_close_pos` loop, lines 60–78): collects
`<name>value</name>` pairs, aborting on the first malformed one.  `tcp` is
`tool_close_pos`; the accumulator carries the params dict built so far. -/
def scanParams (s : List Char) (tcp : Nat) :
    Nat → Nat → List (List Char × List Char) → List (List Char × List Char)
  | 0, _, acc => acc
  | Nat.succ fuel, ps, acc =>
    if ps < tcp then
      match pyFindIn s ['<'] ps tcp with
      | none => acc
      | some po =>
        match pyFind s ['>'] po with
        | none => acc
        | some pc =>
          let pname := pySlice s (po + 1) pc
          let etag := '<' :: '/' :: (pname ++ ['>'])
          match pyFind s etag pc with
          | none => acc
          | some pe =>
            let v := pyStrip (pySlice s (pc + 1) pe)
            scanParams s tcp fuel (pe + etag.length) (aupsert acc pname v)
    else acc

/-- Main loop of `parse_assistant_message` (lines 26–121).  `i` is the scan
position; the fuel argument dominates the number of loop iterations (each
iteration strictly advances `i`). -/
def parseGo (s : List Char) : Nat → Nat → List AssistantMessageContent
  | 0, _ => []
  | Nat.succ fuel, i =>
    if h : i < s.length then
      if s.get ⟨i, h⟩ = '<' then
        match pyFind s ['>'] i with
        | none =>
          let t := pyStrip (s.drop i)
          if t = [] then [] else [.TextContent t true]
        | some tool_close_idx =>
          let tool_name := pySlice s (i + 1) tool_close_idx
          let close_tag := '<' :: '/' :: (tool_name ++ ['>'])
          match pyFind s close_tag tool_close_idx with
          | none =>
            let t := pyStrip (s.drop i)
            if t = [] then [] else [.TextContent t true]
          | some tcp =>
            let ps := scanParams s tcp (s.length + 1) (tool_close_idx + 1) []
            let blocks :=
              if ps.all (fun p => !(pyStrip p.2).isEmpty) then
                [AssistantMessageContent.ToolUse tool_name ps false]
              else
                let t := pyStrip (pySlice s i (tcp + close_tag.length))
                if t = [] then [] else [.TextContent t false]
            blocks ++ parseGo s fuel (tcp + close_tag.length)
      else
        match pyFind s ['<'] i with
        | none =>
          let t := pyStrip (s.drop i)
          if t = [] then [] else [.TextContent t (!pyEndsWith (pyStrip t) ['.'])]
        | some text_close =>
          let t := pyStrip (pySlice s i text_close)
          (if t = [] then [] else [.TextContent t false]) ++ parseGo s fuel text_close
    else []

/-- `parse_assistant_message(assistant_message)`: scan from position 0. -/
def parse_assistant_message (s : List Char) : List AssistantMessageContent :=
  parseGo s (s.length + 1) 0

/-! ### Terminal process manager (`src/file_ops/terminal_manager.py`)

Time is an explicit rational timestamp; `asyncio.call_later` is embedded as
the absolute deadline of the pending hot timer.  Only the state touched by
the claims is modelled: the hot flag, the armed timer, and whether the
`subprocess.Popen` handle exists. -/

/-- `TerminalProcess.PROCESS_HOT_TIMEOUT_NORMAL` (2.0 seconds). -/
def PROCESS_HOT_TIMEOUT_NORMAL : ℚ := 2

/-- `TerminalProcess.PROCESS_HOT_TIMEOUT_COMPILING` (15.0 seconds). -/
def PROCESS_HOT_TIMEOUT_COMPILING : ℚ := 15

/-- State of one `TerminalProcess`: `_is_hot`, the deadline of `_hot_timer`
(absolute time at which the armed `call_later` fires), and whether
`_process` is set (`sub = true` iff `self._process` is not `None`). -/
structure TerminalProcessSt : Type where
  is_hot : Bool
  hot_deadline : Option ℚ
  sub : Bool
deriving DecidableEq, Repr

/-- `TerminalProcess.__init__`: no subprocess, not hot, no timer. -/
def initTerminalProcess : TerminalProcessSt :=
  { is_hot := false, hot_deadline := none, sub := false }

/-- `TerminalProcess._set_hot_timer(timeout)` at absolute time `now`:
cancel any pending timer and arm a new one `timeout` seconds from now. -/
def set_hot_timer (st : TerminalProcessSt) (now timeout : ℚ) : TerminalProcessSt :=
  { st with hot_deadline := some (now + timeout) }

/-- The `compiling_markers` list of `_update_hot_state`. -/
def compiling_markers : List (List Char) :=
  ["compiling".toList, "building".toList, "bundling".toList,
   "transpiling".toList, "generating".toList, "starting".toList]

/-- The `marker_nullifiers` list of `_update_hot_state`. -/
def marker_nullifiers : List (List Char) :=
  ["compiled".toList, "success".toList, "finish".toList, "complete".toList,
   "succeed".toList, "done".toList, "end".toList, "stop".toList,
   "exit".toList, "terminate".toList, "error".toList, "fail".toList]

/-- `data.lower()` (the chunks scanned by the heuristic are ASCII). -/
def pyLower (l : List Char) : List Char := l.map Char.toLower

/-- Python substring test `pat in hay` over `List Char`. -/
def containsSeq (hay pat : List Char) : Bool :=
  decide (pat <:+: hay)

/-- The `is_compiling` test of `_update_hot_state`: some compiling marker
occurs in the lower-cased chunk and no nullifier does. -/
def is_compiling (data : List Char) : Bool :=
  (compiling_markers.any (fun m => containsSeq (pyLower data) m)) &&
    !(marker_nullifiers.any (fun m => containsSeq (pyLower data) m))

/-- `TerminalProcess._update_hot_state(data)` at time `now`: re-arm the hot
timer with the 15 s compiling timeout or the 2 s normal timeout. -/
def update_hot_state (st : TerminalProcessSt) (now : ℚ) (data : List Char) :
    TerminalProcessSt :=
  set_hot_timer st now
    (if is_compiling data then PROCESS_HOT_TIMEOUT_COMPILING
     else PROCESS_HOT_TIMEOUT_NORMAL)

/-- `TerminalProcess.run(command)` at time `now`: spawn the subprocess, set
`_is_hot = True` and arm the normal 2 s timer (lines 106–123). -/
def runProcess (st : TerminalProcessSt) (now : ℚ) : TerminalProcessSt :=
  set_hot_timer { st with sub := true, is_hot := true } now
    PROCESS_HOT_TIMEOUT_NORMAL

/-- End of `TerminalProcess._read_output` (lines 132–134): once the stdout
iterator is exhausted (the subprocess's output stream hit end-of-file) the
reader emits its completion events and sets `self._is_hot = False`
directly.  The pending `_hot_timer` is not cancelled. -/
def readOutputEnd (st : TerminalProcessSt) : TerminalProcessSt :=
  { st with is_hot := false }

/-- The `call_later` callback armed by `_set_hot_timer`: when the timer
fires, `_is_hot` flips to `False`. -/
def hotTimerFire (st : TerminalProcessSt) : TerminalProcessSt :=
  { st with is_hot := false }

/-- `TerminalInfo` metadata rows of `TerminalManager._terminals`. -/
structure TerminalInfoSt : Type where
  terminal_id : Nat
  busy : Bool
  last_command : List Char
  process : Option TerminalProcessSt
deriving DecidableEq, Repr

/-- `TerminalManager` state: the `_terminals` and `_processes` dicts plus
`_next_id`. -/
structure TerminalManagerSt : Type where
  terminals : List (Nat × TerminalInfoSt)
  processes : List (Nat × TerminalProcessSt)
  next_id : Nat
deriving DecidableEq, Repr

/-- `TerminalManager.remove_terminal(terminal_id)`: drop the id from both
dicts; the returned flag is true exactly when `process._process` existed
and `terminate()` was called on it (lines 293–301). -/
def remove_terminal (m : TerminalManagerSt) (tid : Nat) :
    TerminalManagerSt × Bool :=
  match alookup m.processes tid with
  | none => ({ m with terminals := afilter m.terminals tid }, false)
  | some p =>
    ({ m with terminals := afilter m.terminals tid,
              processes := afilter m.processes tid }, p.sub)

/-- `TerminalManager.get_terminal(terminal_id)` (lines 274–284): a lookup
that culls the session when its process object exists and has gone
non-hot.  Returns the result, the mutated manager, and whether a
subprocess was terminated during the cull. -/
def get_terminal (m : TerminalManagerSt) (tid : Nat) :
    Option TerminalInfoSt × TerminalManagerSt × Bool :=
  match alookup m.terminals tid with
  | none => (none, m, false)
  | some info =>
    match info.process with
    | some p =>
      if p.is_hot then (some info, m, false)
      else (none, (remove_terminal m tid).1, (remove_terminal m tid).2)
    | none => (some info, m, false)

/-- `TerminalManager.get_all_terminals()` (lines 303–310): iterate over a
snapshot of the `_terminals` keys, calling `get_terminal` on each (which
may cull), and collect the still-active infos. -/
def get_all_terminals_go (m : TerminalManagerSt) :
    List Nat → List TerminalInfoSt × TerminalManagerSt
  | [] => ([], m)
  | k :: ks =>
    match (get_terminal m k).1 with
    | some info =>
      ((info :: (get_all_terminals_go (get_terminal m k).2.1 ks).1),
        (get_all_terminals_go (get_terminal m k).2.1 ks).2)
    | none => get_all_terminals_go (get_terminal m k).2.1 ks

/-- `TerminalManager.get_all_terminals()`. -/
def get_all_terminals (m : TerminalManagerSt) :
    List TerminalInfoSt × TerminalManagerSt :=
  get_all_terminals_go m (m.terminals.map (·.1))

/-! ### Tool registry (`src/tools/tool_manager.py`)

`hashlib.md5` and `datetime.now()` are external library calls; the model
takes the hash function and the timestamp as parameters.  The `ValueError`s
raised by the registry are embedded as a typed error. -/

/-- Python substring test `pat in hay`. -/
def containsSub (hay pat : String) : Bool :=
  containsSeq hay.toList pat.toList

/-- The distinct `ValueError` messages raised by `ToolManager`. -/
inductive ToolError : Type
  | alreadyExists (name : String)
  | notExtended (name : String)
  | restrictedImport
  | usesSubprocess
deriving DecidableEq, Repr

/-- A `self.tools` entry: `BasicTool` (immutable, carries an implementation
function, elided here) or `ExtendedTool` (mutable metadata). -/
inductive ToolObj : Type
  | basic (description : String)
  | extended (name description : String)
deriving DecidableEq, Repr

/-- `ToolVersion` rows of `self.tool_versions` (`version` is the string
`str(prior count + 1)` the source stores). -/
structure ToolVersion : Type where
  version : String
  timestamp : String
  checksum : String
  description : String
deriving DecidableEq, Repr

/-- `ToolManager` state: `self.tools`, the module-global `EXTENDED_TOOLS`
dict the manager mutates alongside it, and `self.tool_versions`. -/
structure ToolManagerSt : Type where
  tools : List (String × ToolObj)
  extended_tools : List (String × ToolObj)
  tool_versions : List (String × List ToolVersion)
deriving DecidableEq, Repr

/-- The thirteen basic-tool names seeded by `ToolManager.__init__`, in dict
order. -/
def basicToolNames : List String :=
  ["read_file", "write_to_file", "replace_in_file", "ensure_file_in_context",
   "execute_command", "search_files", "list_files",
   "list_code_definition_names", "ask_followup_question",
   "attempt_completion", "add_tool", "update_tool", "remove_tool"]

/-- `ToolManager.__init__` with the module-global `EXTENDED_TOOLS` still
empty: thirteen immutable basic tools, no extended tools, no versions. -/
def initialToolManager : ToolManagerSt :=
  { tools :=
      [("read_file", .basic "Read the contents of a file"),
       ("write_to_file", .basic "Write content to a file"),
       ("replace_in_file", .basic "Make targeted edits to a file"),
       ("ensure_file_in_context", .basic "Ensure file is in context"),
       ("execute_command", .basic "Execute CLI commands on the system"),
       ("search_files", .basic "Perform regex search across files"),
       ("list_files", .basic "List files and directories"),
       ("list_code_definition_names", .basic "List source code definitions"),
       ("ask_followup_question", .basic "Ask the user a follow-up question"),
       ("attempt_completion", .basic "Present the result of a task"),
       ("add_tool", .basic "Add a new tool"),
       ("update_tool", .basic "Update an existing tool"),
       ("remove_tool", .basic "Remove an existing tool")],
    extended_tools := [],
    tool_versions := [] }

/-- `ToolManager._validate_tool_code(code)`: denylist scan; `none` means the
code passed. -/
def validate_tool_code (code : String) : Option ToolError :=
  if containsSub code "import os" || containsSub code "import sys" then
    some .restrictedImport
  else if containsSub code "subprocess" then some .usesSubprocess
  else none

/-- `ToolManager._create_new_version(name, code, description)`:
append one `ToolVersion` numbered `str(prior count + 1)` whose checksum is
`hashFn code` (the md5 hex digest in the source) under timestamp `ts`. -/
def create_new_version (tv : List (String × List ToolVersion))
    (hashFn : String → String) (ts name code description : String) :
    List (String × List ToolVersion) :=
  let prior := (alookup tv name).getD []
  let v : ToolVersion :=
    { version := toString (prior.length + 1), timestamp := ts,
      checksum := hashFn code, description := description }
  aupsert tv name (prior ++ [v])

/-- `ToolManager.add_tool(name, description, code)`. -/
def add_tool (tm : ToolManagerSt) (hashFn : String → String)
    (ts name description code : String) : Except ToolError ToolManagerSt :=
  if (alookup tm.tools name).isSome then .error (.alreadyExists name)
  else
    match validate_tool_code code with
    | some e => .error e
    | none =>
      let t := ToolObj.extended name description
      .ok { tools := aupsert tm.tools name t,
            extended_tools := aupsert tm.extended_tools name t,
            tool_versions :=
              create_new_version tm.tool_versions hashFn ts name code description }

/-- In-place `description` assignment on the tool object stored under a key
(the source mutates the same object referenced from both dicts). -/
def set_description (d : String) : ToolObj → ToolObj
  | .basic _ => .basic d
  | .extended n _ => .extended n d

/-- Rewrite the description of the entry at key `k`. -/
def aset_description (l : List (String × ToolObj)) (k d : String) :
    List (String × ToolObj) :=
  l.map (fun e => if e.1 = k then (e.1, set_description d e.2) else e)

/-- `ToolManager.update_tool(name, code, description)`. -/
def update_tool (tm : ToolManagerSt) (hashFn : String → String)
    (ts name code description : String) : Except ToolError ToolManagerSt :=
  if (alookup tm.extended_tools name).isNone then .error (.notExtended name)
  else
    match validate_tool_code code with
    | some e => .error e
    | none =>
      .ok { tools := aset_description tm.tools name description,
            extended_tools := aset_description tm.extended_tools name description,
            tool_versions :=
              create_new_version tm.tool_versions hashFn ts name code description }

/-- `ToolManager.remove_tool(name)`: drop the descriptor and the version
log together. -/
def remove_tool (tm : ToolManagerSt) (name : String) :
    Except ToolError ToolManagerSt :=
  if (alookup tm.extended_tools name).isNone then .error (.notExtended name)
  else
    .ok { tools := afilter tm.tools name,
          extended_tools := afilter tm.extended_tools name,
          tool_versions := afilter tm.tool_versions name }

/-! ### Filesystem model for the diff engine

Paths are lists of segments from the root; the root `[]` always exists.
The model mirrors the `pathlib` calls the diff engine makes:
`Path.exists`, `Path.mkdir()` (no `parents=True`: fails when the parent is
missing), `open(p, "w")`, `Path.unlink()`, `Path.rmdir()`,
`Path.iterdir()`. -/

/-- A filesystem path as segments from the root. -/
abbrev PathSegs := List String

/-- The distinct `OSError`s the diff engine can hit. -/
inductive FsError : Type
  | fileNotFound (p : PathSegs)
  | parentMissing (p : PathSegs)
  | alreadyThere (p : PathSegs)
  | isDirectory (p : PathSegs)
  | valueError
deriving DecidableEq, Repr

/-- Filesystem state: regular files with contents, and directories. -/
structure FS : Type where
  files : List (PathSegs × List Char)
  dirs : List PathSegs
deriving DecidableEq, Repr

/-- A directory exists when it is the root or is recorded in `dirs`. -/
def dirExists (fs : FS) (d : PathSegs) : Bool :=
  d.isEmpty || decide (d ∈ fs.dirs)

/-- `Path.exists()`: a file or directory is present. -/
def pathExists (fs : FS) (p : PathSegs) : Bool :=
  (alookup fs.files p).isSome || dirExists fs p

/-- Well-formed filesystem: every recorded entry hangs off an existing
parent directory (always true of a real filesystem tree). -/
def FS.WF (fs : FS) : Prop :=
  (∀ d ∈ fs.dirs, dirExists fs d.dropLast = true) ∧
    (∀ e ∈ fs.files, dirExists fs e.1.dropLast = true)

instance (fs : FS) : Decidable fs.WF := by
  unfold FS.WF; infer_instance

/-- `read_local_file` (`operations.py` line 93): the content of an existing
file (`FileNotFoundError` otherwise; the permission branches are elided). -/
def readFile (fs : FS) (p : PathSegs) : Except FsError (List Char) :=
  match alookup fs.files p with
  | some c => .ok c
  | none => .error (.fileNotFound p)

/-- `open(p, "w").write(c)`: create or truncate the file; fails when the
parent directory is missing or `p` is a directory. -/
def writeFile (fs : FS) (p : PathSegs) (c : List Char) : Except FsError FS :=
  if decide (p ∈ fs.dirs) then .error (.isDirectory p)
  else if dirExists fs p.dropLast then
    .ok { fs with files := aupsert fs.files p c }
  else .error (.parentMissing p)

/-- `Path.unlink()`: remove an existing file. -/
def unlink (fs : FS) (p : PathSegs) : Except FsError FS :=
  if (alookup fs.files p).isSome then
    .ok { fs with files := afilter fs.files p }
  else .error (.fileNotFound p)

/-- `Path.mkdir()` without `parents=True`: fails when the path already
exists or its parent directory is missing. -/
def mkdir (fs : FS) (p : PathSegs) : Except FsError FS :=
  if pathExists fs p then .error (.alreadyThere p)
  else if dirExists fs p.dropLast then .ok { fs with dirs := p :: fs.dirs }
  else .error (.parentMissing p)

/-- `not any(d.iterdir())`: no file or directory has `d` as its parent. -/
def isEmptyDir (fs : FS) (d : PathSegs) : Bool :=
  !(fs.files.any (fun e => decide (e.1 ≠ [] ∧ e.1.dropLast = d))) &&
    !(fs.dirs.any (fun q => decide (q ≠ [] ∧ q.dropLast = d)))

/-- `Path.rmdir()` as invoked by `revert_changes` (guarded by the existence
and emptiness checks at the call site). -/
def rmdir (fs : FS) (d : PathSegs) : FS :=
  { fs with dirs := fs.dirs.filter (fun q => decide (q ≠ d)) }

/-- Ancestor chain worker: the fuel (the path length) dominates the number
of `dropLast` steps down to the root. -/
def parentsOfGo : Nat → PathSegs → List PathSegs
  | 0, _ => []
  | _ + 1, [] => []
  | fuel + 1, p => p.dropLast :: parentsOfGo fuel p.dropLast

/-- `Path(p).parents`: the ancestor directories nearest-first, ending at
the root `[]`. -/
def parentsOf (p : PathSegs) : List PathSegs :=
  parentsOfGo p.length p

/-! ### Diff/content engine (`src/file_ops/diff_view_provider.py`) -/

/-- `DiffViewProvider._create_directories_for_file` (lines 141–148): walk
the parent chain nearest-first, `mkdir` each missing directory, and return
the created ones in creation order. -/
def createDirsAux (fs : FS) : List PathSegs → Except FsError (FS × List PathSegs)
  | [] => .ok (fs, [])
  | p :: rest =>
    if pathExists fs p then createDirsAux fs rest
    else
      match mkdir fs p with
      | .error e => .error e
      | .ok fs' =>
        match createDirsAux fs' rest with
        | .error e => .error e
        | .ok (fs'', created) => .ok (fs'', p :: created)

/-- `_create_directories_for_file(file_path)` iterates `file_path.parents`. -/
def create_directories_for_file (fs : FS) (p : PathSegs) :
    Except FsError (FS × List PathSegs) :=
  createDirsAux fs (parentsOf p)

/-- `DiffViewProvider` session state (the fields the core operations touch;
`controllers` stands for the two decoration controllers set by `open`,
`active_diff_editor` for the editor dict). -/
structure DiffViewProviderSt : Type where
  cwd : PathSegs
  edit_type : Option String
  is_editing : Bool
  original_content : Option (List Char)
  created_dirs : List PathSegs
  rel_path : Option PathSegs
  new_content : Option (List Char)
  active_diff_editor : Bool
  controllers : Bool
  streamed_lines : List (List Char)
deriving DecidableEq, Repr

/-- `DiffViewProvider.__init__(cwd)`. -/
def initDiffViewProvider (cwd : PathSegs) : DiffViewProviderSt :=
  { cwd := cwd, edit_type := none, is_editing := false,
    original_content := none, created_dirs := [], rel_path := none,
    new_content := none, active_diff_editor := false, controllers := false,
    streamed_lines := [] }

/-- `DiffViewProvider.open(rel_path)` (lines 29–54).  `file_exists` is
computed from the pre-set `edit_type` attribute (`self.edit_type ==
"modify"`), not from the disk.  For the non-modify case the original
content is snapshotted as empty and an empty placeholder file is written
after the missing parent directories are created. -/
def dvpOpen (dvp : DiffViewProviderSt) (fs : FS) (rel : PathSegs) :
    Except FsError (DiffViewProviderSt × FS) := do
  let file_exists := dvp.edit_type == some "modify"
  let absolute_path := dvp.cwd ++ rel
  let original ← if file_exists then readFile fs absolute_path else pure []
  let (fs₁, created) ← create_directories_for_file fs absolute_path
  let fs₂ ← if !file_exists then writeFile fs₁ absolute_path [] else pure fs₁
  pure ({ dvp with rel_path := some rel, is_editing := true,
                   original_content := some original, created_dirs := created,
                   active_diff_editor := true, controllers := true,
                   streamed_lines := [] }, fs₂)

/-- Python `s.split("\n")` over `List Char`. -/
def pySplitNl (s : List Char) : List (List Char) :=
  s.splitOn '\n'

/-- `DiffViewProvider.update(accumulated_content, is_final)` (lines 56–79):
record the full accumulated content; when not final, the last (still
incomplete) line is held back from the streamed lines. -/
def dvpUpdate (dvp : DiffViewProviderSt) (content : List Char)
    (is_final : Bool) : Except FsError DiffViewProviderSt :=
  if dvp.rel_path = none ∨ dvp.controllers = false then .error .valueError
  else
    let acc := pySplitNl content
    let acc := if is_final then acc else acc.dropLast
    .ok { dvp with new_content := some content, streamed_lines := acc }

/-- The dict returned by `save_changes`. -/
structure SaveResult : Type where
  new_problems_message : Option String
  user_edits : Option (List Char)
  final_content : Option (List Char)
deriving DecidableEq, Repr

/-- `DiffViewProvider.save_changes()` (lines 81–105).  The guard
`not self.rel_path or not self.new_content or not self.active_diff_editor`
uses Python truthiness, so an *empty* `new_content` also takes the early
all-`None` return.  Otherwise the accumulated content is written to disk
and reported back; the diagnostics collaborator is the source's stub
returning the empty summary. -/
def save_changes (dvp : DiffViewProviderSt) (fs : FS) :
    Except FsError (FS × SaveResult) :=
  match dvp.rel_path, dvp.new_content, dvp.active_diff_editor with
  | some rp, some c, true =>
    if c = [] then .ok (fs, ⟨none, none, none⟩)
    else do
      let fs' ← writeFile fs (dvp.cwd ++ rp) c
      pure (fs', ⟨some "", none, some c⟩)
  | _, _, _ => .ok (fs, ⟨none, none, none⟩)

/-- The directory-removal walk of `revert_changes` (lines 118–120): for
each directory, remove it only if it still exists and is empty. -/
def removeDirsWalk (fs : FS) : List PathSegs → FS
  | [] => fs
  | d :: rest =>
    let fs' := if pathExists fs d && isEmptyDir fs d then rmdir fs d else fs
    removeDirsWalk fs' rest

/-- `DiffViewProvider.reset()` (lines 128–139): note that `rel_path` and
`new_content` are *not* cleared by the source. -/
def dvpReset (dvp : DiffViewProviderSt) : DiffViewProviderSt :=
  { dvp with edit_type := none, is_editing := false, original_content := none,
             created_dirs := [], active_diff_editor := false,
             controllers := false, streamed_lines := [] }

/-- `DiffViewProvider.revert_changes()` (lines 107–126): on a non-modify
session delete the placeholder file and walk the created directories in
reverse creation order, removing each only if empty; on a modify session
rewrite the captured original content. -/
def revert_changes (dvp : DiffViewProviderSt) (fs : FS) :
    Except FsError (DiffViewProviderSt × FS) :=
  match dvp.rel_path with
  | none => .ok (dvp, fs)
  | some rp =>
    let absolute_path := dvp.cwd ++ rp
    if dvp.edit_type == some "modify" then do
      let fs₁ ← writeFile fs absolute_path (dvp.original_content.getD [])
      pure (dvpReset dvp, fs₁)
    else do
      let fs₁ ← unlink fs absolute_path
      let fs₂ := removeDirsWalk fs₁ dvp.created_dirs.reverse
      pure (dvpReset dvp, fs₂)

/-! ### Concrete fixtures used by counterexamples and witnesses -/

/-- A filesystem whose root already holds `f.txt` with content `hello`. -/
def sampleFsHello : FS := { files := [(["f.txt"], "hello".toList)], dirs := [] }

/-- A filesystem whose root holds `f` with content `old`. -/
def sampleFsOld : FS := { files := [(["f"], "old".toList)], dirs := [] }

/-- A modify session on `f` after `open` (controllers and editor set). -/
def sampleModifyDvp : DiffViewProviderSt :=
  { initDiffViewProvider [] with rel_path := some ["f"], controllers := true,
                                 active_diff_editor := true,
                                 edit_type := some "modify",
                                 original_content := some "old".toList }

/-- A workspace filesystem containing only the directory `w`. -/
def sampleFsW : FS := { files := [], dirs := [["w"]] }

/-- The session state produced by a Create `open` of `sub/f.txt` in
workspace `w`. -/
def sampleCreatedDvp : DiffViewProviderSt :=
  { initDiffViewProvider ["w"] with
      rel_path := some ["sub", "f.txt"], is_editing := true,
      original_content := some [], created_dirs := [["w", "sub"]],
      active_diff_editor := true, controllers := true, streamed_lines := [] }

/-- The filesystem produced by that `open`: the placeholder file plus the
one created directory. -/
def sampleCreatedFs : FS :=
  { files := [(["w", "sub", "f.txt"], [])], dirs := [["w", "sub"], ["w"]] }

/-- A terminal process whose subprocess exists but whose hot flag has gone
false. -/
def sampleColdProc : TerminalProcessSt :=
  { is_hot := false, hot_deadline := none, sub := true }

/-- Terminal metadata for id 0 wrapping `sampleColdProc`. -/
def sampleColdInfo : TerminalInfoSt :=
  { terminal_id := 0, busy := false, last_command := [],
    process := some sampleColdProc }

/-- A manager tracking exactly the cold session 0. -/
def sampleMgr : TerminalManagerSt :=
  { terminals := [(0, sampleColdInfo)], processes := [(0, sampleColdProc)],
    next_id := 1 }

/-! ### General helper lemmas -/

theorem dropWhile_idem {p : Char → Bool} (l : List Char) :
    (l.dropWhile p).dropWhile p = l.dropWhile p := by
  induction l with
  | nil => rfl
  | cons a t ih =>
    by_cases h : p a
    · simpa [List.dropWhile_cons, h] using ih
    · simp [List.dropWhile_cons, h]

theorem dropWhile_fixed_head {p : Char → Bool} {a : Char} {t : List Char}
    (h : (a :: t).dropWhile p = a :: t) : p a = false := by
  by_cases hp : p a
  · exfalso
    rw [List.dropWhile_cons, if_pos hp] at h
    have hlen := congrArg List.length h
    have := (List.dropWhile_suffix (l := t) p).sublist.length_le
    simp at hlen
    omega
  · simpa using hp

theorem pyStrip_idem (l : List Char) : pyStrip (pyStrip l) = pyStrip l := by
  unfold pyStrip
  have hAfix : (l.dropWhile isPySpace).dropWhile isPySpace =
      l.dropWhile isPySpace := dropWhile_idem l
  have hBpre :
      ((l.dropWhile isPySpace).reverse.dropWhile isPySpace).reverse <+:
        l.dropWhile isPySpace := by
    rw [← List.reverse_suffix, List.reverse_reverse]
    exact List.dropWhile_suffix _
  have hBfix :
      (((l.dropWhile isPySpace).reverse.dropWhile isPySpace).reverse).dropWhile
          isPySpace =
        ((l.dropWhile isPySpace).reverse.dropWhile isPySpace).reverse := by
    rcases hBpre with ⟨t, ht⟩
    cases hBv : ((l.dropWhile isPySpace).reverse.dropWhile isPySpace).reverse with
    | nil => rfl
    | cons b bs =>
      have hb : isPySpace b = false := by
        rw [hBv] at ht
        rw [← ht, List.cons_append] at hAfix
        exact dropWhile_fixed_head hAfix
      simp [List.dropWhile_cons, hb]
  rw [hBfix]
  simp only [List.reverse_reverse]
  rw [dropWhile_idem]

theorem alookup_aupsert_self {α β : Type} [DecidableEq α]
    (l : List (α × β)) (k : α) (v : β) : alookup (aupsert l k v) k = some v := by
  induction l with
  | nil => simp [aupsert, alookup]
  | cons e rest ih =>
    by_cases h : e.1 = k <;> simp [aupsert, alookup, h, ih]

theorem alookup_aupsert_ne {α β : Type} [DecidableEq α]
    (l : List (α × β)) (k k' : α) (v : β) (h : k' ≠ k) :
    alookup (aupsert l k v) k' = alookup l k' := by
  induction l with
  | nil => simp [aupsert, alookup, h, Ne.symm h]
  | cons e rest ih =>
    by_cases he : e.1 = k
    · subst he
      simp [aupsert, alookup, h, Ne.symm h]
    · by_cases he' : e.1 = k' <;>
        simp [aupsert, alookup, he, he', h, Ne.symm h, ih]

theorem alookup_afilter_self {α β : Type} [DecidableEq α]
    (l : List (α × β)) (k : α) : alookup (afilter l k) k = none := by
  induction l with
  | nil => simp [afilter, alookup]
  | cons e rest ih =>
    by_cases h : e.1 = k <;> simp [afilter, alookup, h, ih]

theorem alookup_afilter_ne {α β : Type} [DecidableEq α]
    (l : List (α × β)) (k k' : α) (h : k' ≠ k) :
    alookup (afilter l k) k' = alookup l k' := by
  induction l with
  | nil => simp [afilter, alookup]
  | cons e rest ih =>
    by_cases he : e.1 = k
    · subst he
      simp [afilter, alookup, h, Ne.symm h, ih]
    · by_cases he' : e.1 = k' <;>
        simp [afilter, alookup, he, he', h, Ne.symm h, ih]

theorem afilter_aupsert_cancel {α β : Type} [DecidableEq α]
    (l : List (α × β)) (k : α) (v : β) (h : alookup l k = none) :
    afilter (aupsert l k v) k = afilter l k := by
  induction l with
  | nil => simp [aupsert, afilter]
  | cons e rest ih =>
    by_cases he : e.1 = k
    · simp [alookup, he] at h
    · simp [alookup, he] at h
      simp [aupsert, afilter, he, ih h]

theorem afilter_eq_self {α β : Type} [DecidableEq α]
    (l : List (α × β)) (k : α) (h : alookup l k = none) : afilter l k = l := by
  induction l with
  | nil => rfl
  | cons e rest ih =>
    by_cases he : e.1 = k
    · simp [alookup, he] at h
    · simp [alookup, he] at h
      simp [afilter, he, ih h]

/-! ### Claim C1 -/

/-- C1 counterexample: in the buffer `<tool><a>x</a><b>y</tool>` the action
tag has a matching closer and the inner parameter `b` lacks its closing
tag, yet `parse_assistant_message` emits an `ActionBlock` built from the
single parameter collected before the malformed one — not a `TextBlock` of
the whole span, contradicting the claim's "never". -/
theorem C1_counterexample :
    parse_assistant_message "<tool><a>x</a><b>y</tool>".toList =
      [.ToolUse "tool".toList [("a".toList, "x".toList)] false] := by decide

/-- C1 (corrected): for every buffer, a malformed inner parameter — a
parameter opener whose `>` never occurs, or whose `</name>` closing tag
never occurs — aborts inner parameter scanning, keeping exactly the
parameters collected before it (first two conjuncts, over every buffer,
scan position and accumulator); and at every complete action tag the
parser then emits an `ActionBlock` carrying exactly the collected
parameters whenever all their values are non-empty after trimming,
demoting the entire unresolved tagged span to a single non-partial
`TextBlock` only when some collected value is empty after trimming (third
conjunct, over every buffer and tag position). -/
theorem C1_param_scan_abort :
    (∀ (s : List Char) (tcp fuel ps : Nat)
      (acc : List (List Char × List Char)) (po : Nat),
      ps < tcp →
      pyFindIn s ['<'] ps tcp = some po →
      pyFind s ['>'] po = none →
      scanParams s tcp (fuel + 1) ps acc = acc) ∧
    (∀ (s : List Char) (tcp fuel ps : Nat)
      (acc : List (List Char × List Char)) (po pc : Nat),
      ps < tcp →
      pyFindIn s ['<'] ps tcp = some po →
      pyFind s ['>'] po = some pc →
      pyFind s ('<' :: '/' :: (pySlice s (po + 1) pc ++ ['>'])) pc = none →
      scanParams s tcp (fuel + 1) ps acc = acc) ∧
    (∀ (s : List Char) (fuel i tool_close_idx tcp : Nat) (h : i < s.length),
      s.get ⟨i, h⟩ = '<' →
      pyFind s ['>'] i = some tool_close_idx →
      pyFind s ('<' :: '/' :: (pySlice s (i + 1) tool_close_idx ++ ['>']))
        tool_close_idx = some tcp →
      parseGo s (fuel + 1) i =
        (if (scanParams s tcp (s.length + 1) (tool_close_idx + 1) []).all
            (fun p => !(pyStrip p.2).isEmpty) then
          [AssistantMessageContent.ToolUse (pySlice s (i + 1) tool_close_idx)
            (scanParams s tcp (s.length + 1) (tool_close_idx + 1) []) false]
        else
          if pyStrip (pySlice s i (tcp +
              ('<' :: '/' :: (pySlice s (i + 1) tool_close_idx ++ ['>'])).length)) =
              [] then
            []
          else
            [AssistantMessageContent.TextContent
              (pyStrip (pySlice s i (tcp +
                ('<' :: '/' :: (pySlice s (i + 1) tool_close_idx ++ ['>'])).length)))
              false]) ++
        parseGo s fuel (tcp +
          ('<' :: '/' :: (pySlice s (i + 1) tool_close_idx ++ ['>'])).length)) := by
  refine ⟨?_, ?_, ?_⟩
  · intro s tcp fuel ps acc po hlt hf1 hf2
    simp only [scanParams, if_pos hlt, hf1, hf2]
  · intro s tcp fuel ps acc po pc hlt hf1 hf2 hf3
    simp only [scanParams, if_pos hlt, hf1, hf2, hf3]
  · intro s fuel i tool_close_idx tcp h hget hf1 hf2
    simp only [parseGo, dif_pos h, if_pos hget, hf1, hf2]

/-- C1 witness: the universal statement applied to the concrete buffer
`<tool><a>x</a><b>y</tool>`: the inner scan aborts at the malformed
parameter `b` (no `</b>` closer) keeping the collected `{a: x}`, the
parser emits the `ActionBlock` built from it, and the missing-`>` abort
applied to the buffer `<a` with no `>` at all. -/
theorem C1_param_scan_abort_witness :
    scanParams "<a".toList 2 1 0 [] = [] ∧
    scanParams "<tool><a>x</a><b>y</tool>".toList 18 23 14
      [("a".toList, "x".toList)] = [("a".toList, "x".toList)] ∧
    parse_assistant_message "<tool><a>x</a><b>y</tool>".toList =
      [.ToolUse "tool".toList [("a".toList, "x".toList)] false] := by
  refine ⟨?_, ?_, ?_⟩
  · exact C1_param_scan_abort.1 "<a".toList 2 0 0 [] 0 (by decide) (by decide)
      (by decide)
  · exact C1_param_scan_abort.2.1 "<tool><a>x</a><b>y</tool>".toList 18 22 14
      [("a".toList, "x".toList)] 14 16 (by decide) (by decide) (by decide)
      (by decide)
  · have hB := C1_param_scan_abort.2.2 "<tool><a>x</a><b>y</tool>".toList 25 0
      5 18 (by decide) (by decide) (by decide) (by decide)
    have h0 : parse_assistant_message "<tool><a>x</a><b>y</tool>".toList =
        parseGo "<tool><a>x</a><b>y</tool>".toList (25 + 1) 0 := rfl
    rw [h0, hB]
    decide

/-! ### Claim C2 -/

/-- C2 counterexample: start a session at time 0 (hot, 2-second timer
armed, deadline 2).  When the subprocess's output stream hits end-of-file
(here before any timer fires), `_read_output` itself sets the hot flag to
false while the armed timer deadline is still pending — contradicting the
claim that the hot flag remains true until the most recently armed hot
timer expires and that the end of the process does not clear it. -/
theorem C2_counterexample :
    (runProcess initTerminalProcess 0).is_hot = true ∧
    (readOutputEnd (runProcess initTerminalProcess 0)).is_hot = false ∧
    (readOutputEnd (runProcess initTerminalProcess 0)).hot_deadline = some 2 := by
  refine ⟨rfl, rfl, ?_⟩
  show some ((0 : ℚ) + 2) = some 2
  norm_num

/-- C2 (corrected): when a terminal session's output stream reaches
end-of-file, the reader thread immediately sets the session's hot flag to
false; it does not wait for the most recently armed hot timer.  The armed
timer itself is left untouched (its later firing merely re-clears the
flag), and the subprocess handle is unchanged. -/
theorem C2_eof_clears_hot (st : TerminalProcessSt) :
    (readOutputEnd st).is_hot = false ∧
    (readOutputEnd st).hot_deadline = st.hot_deadline ∧
    (readOutputEnd st).sub = st.sub :=
  ⟨rfl, rfl, rfl⟩

/-! ### Claim C5 -/

/-- C5 counterexample: `add_tool` on the seeded basic name `read_file`
fails with the duplicate-name `ValueError` ("already exists"), not with
the "not an extended tool" error the claim requires for all three
operations. -/
theorem C5_counterexample :
    add_tool initialToolManager (fun _ => "") "t0" "read_file" "d" "c" =
      .error (.alreadyExists "read_file") := by rfl

/-- C5 (corrected): for every basic-tool name seeded at construction,
`update_tool` and `remove_tool` fail with the "not an extended tool"
error, while `add_tool` fails with the duplicate-name "already exists"
error; each failure returns no new registry state, so the tool table and
version logs are unchanged.  The seeding facts themselves (the name is in
`tools` and not in `EXTENDED_TOOLS`) are stated for the constructed
registry and the failures for every registry state preserving them. -/
theorem C5_basic_tools_immutable :
    ∀ name ∈ basicToolNames,
      (alookup initialToolManager.tools name).isSome = true ∧
      (alookup initialToolManager.extended_tools name).isNone = true ∧
      ∀ (tm : ToolManagerSt) (hashFn : String → String) (ts d c : String),
        (alookup tm.tools name).isSome = true →
        (alookup tm.extended_tools name).isNone = true →
        add_tool tm hashFn ts name d c = .error (.alreadyExists name) ∧
        update_tool tm hashFn ts name c d = .error (.notExtended name) ∧
        remove_tool tm name = .error (.notExtended name) := by
  intro name hname
  refine ⟨?_, ?_, ?_⟩
  · fin_cases hname <;> rfl
  · fin_cases hname <;> rfl
  · intro tm hashFn ts d c h1 h2
    refine ⟨?_, ?_, ?_⟩
    · unfold add_tool
      rw [if_pos h1]
    · unfold update_tool
      rw [if_pos h2]
    · unfold remove_tool
      rw [if_pos h2]

/-- C5 witness: the corrected statement applied to the concrete name
`read_file` on the freshly constructed registry. -/
theorem C5_basic_tools_immutable_witness :
    add_tool initialToolManager (fun _ => "") "t0" "read_file" "d" "c" =
      .error (.alreadyExists "read_file") ∧
    update_tool initialToolManager (fun _ => "") "t0" "read_file" "c" "d" =
      .error (.notExtended "read_file") ∧
    remove_tool initialToolManager "read_file" = .error (.notExtended "read_file") :=
  (C5_basic_tools_immutable "read_file" (by decide)).2.2 initialToolManager
    (fun _ => "") "t0" "d" "c" (by rfl) (by rfl)

/-! ### Claim C3 (counterexample) -/

/-- C3 counterexample: `f.txt` exists on disk with content `hello`, but the
session's `edit_type` attribute is unset, so `open` treats the session as
Create: it snapshots the original content as the empty string (not the
file's current content) and truncates the existing file to an empty
placeholder — `open` does not determine the edit kind by checking the
disk. -/
theorem C3_counterexample :
    alookup sampleFsHello.files ["f.txt"] = some "hello".toList ∧
    (initDiffViewProvider []).edit_type = none ∧
    dvpOpen (initDiffViewProvider []) sampleFsHello ["f.txt"] =
      .ok ({ initDiffViewProvider [] with
               rel_path := some ["f.txt"], is_editing := true,
               original_content := some [], created_dirs := [],
               active_diff_editor := true, controllers := true },
           { files := [(["f.txt"], [])], dirs := [] }) := by
  refine ⟨rfl, rfl, ?_⟩
  rfl

/-! ### Claim C7 (counterexample) -/

/-- C7 counterexample: a modify session on `f` (disk content `old`) whose
final accumulated content is the empty string.  `update(…, final)` records
it, but `save_changes` takes the Python-falsy early return: the file is
left holding `old` (not byte-identical to the empty final content) and the
result reports `None` rather than the content used. -/
theorem C7_counterexample :
    dvpUpdate sampleModifyDvp [] true =
      .ok { sampleModifyDvp with new_content := some [], streamed_lines := [[]] } ∧
    save_changes
        { sampleModifyDvp with new_content := some [], streamed_lines := [[]] }
        sampleFsOld =
      .ok (sampleFsOld, ⟨none, none, none⟩) ∧
    alookup sampleFsOld.files ["f"] = some "old".toList := by
  refine ⟨rfl, rfl, rfl⟩

/-! ### Claim C6 -/

theorem is_compiling_iff (data : List Char) :
    is_compiling data = true ↔
      ((∃ m ∈ compiling_markers, m <:+: pyLower data) ∧
        ∀ m ∈ marker_nullifiers, ¬ m <:+: pyLower data) := by
  simp [is_compiling, containsSeq, List.any_eq_true]

/-- C6: for every chunk fed to the hot-state heuristic, if the chunk
contains a compiling-indicator keyword (case-insensitively) and no
terminating keyword, the hot timer is re-armed to the 15-second compiling
timeout; otherwise it is re-armed to the 2-second normal timeout.  In
particular a chunk containing `Build complete` arms the 2-second
timeout. -/
theorem C6_hot_timer_choice :
    (∀ (st : TerminalProcessSt) (now : ℚ) (data : List Char),
      (((∃ m ∈ compiling_markers, m <:+: pyLower data) ∧
          ∀ m ∈ marker_nullifiers, ¬ m <:+: pyLower data) →
        (update_hot_state st now data).hot_deadline = some (now + 15)) ∧
      (¬((∃ m ∈ compiling_markers, m <:+: pyLower data) ∧
          ∀ m ∈ marker_nullifiers, ¬ m <:+: pyLower data) →
        (update_hot_state st now data).hot_deadline = some (now + 2))) ∧
    ∀ (st : TerminalProcessSt) (now : ℚ),
      (update_hot_state st now "Build complete".toList).hot_deadline =
        some (now + 2) := by
  constructor
  · intro st now data
    constructor
    · intro h
      have hc : is_compiling data = true := (is_compiling_iff data).mpr h
      simp [update_hot_state, set_hot_timer, hc, PROCESS_HOT_TIMEOUT_COMPILING]
    · intro h
      have hc : is_compiling data = false := by
        cases hcv : is_compiling data with
        | false => rfl
        | true => exact absurd ((is_compiling_iff data).mp hcv) h
      simp [update_hot_state, set_hot_timer, hc, PROCESS_HOT_TIMEOUT_NORMAL]
  · intro st now
    have hc : is_compiling "Build complete".toList = false := by decide
    unfold update_hot_state set_hot_timer
    rw [hc]
    rfl

/-- C6 witness: a pure `compiling` chunk arms the 15-second timeout and a
`Build complete` chunk arms the 2-second timeout, via the theorem. -/
theorem C6_hot_timer_choice_witness :
    (update_hot_state initTerminalProcess 0 "compiling".toList).hot_deadline =
      some (0 + 15) ∧
    (update_hot_state initTerminalProcess 0 "Build complete".toList).hot_deadline =
      some (0 + 2) :=
  ⟨(C6_hot_timer_choice.1 initTerminalProcess 0 "compiling".toList).1 (by decide),
   C6_hot_timer_choice.2 initTerminalProcess 0⟩

/-! ### Claim C9 -/

/-- C9: every successful `add_tool`/`update_tool` appends exactly one
`ToolVersion` to the submitted name's version log, numbered
`str(prior count + 1)`, carrying the submitted description and the content
hash of the submitted code; every other name's version log is unchanged. -/
theorem C9_version_append :
    ∀ (tm tm' : ToolManagerSt) (hashFn : String → String) (ts name d c : String),
      (add_tool tm hashFn ts name d c = .ok tm' ∨
        update_tool tm hashFn ts name c d = .ok tm') →
      alookup tm'.tool_versions name =
        some ((alookup tm.tool_versions name).getD [] ++
          [{ version := toString (((alookup tm.tool_versions name).getD []).length + 1),
             timestamp := ts, checksum := hashFn c, description := d }]) ∧
      ∀ other : String, other ≠ name →
        alookup tm'.tool_versions other = alookup tm.tool_versions other := by
  intro tm tm' hashFn ts name d c h
  have hver :
      tm'.tool_versions = create_new_version tm.tool_versions hashFn ts name c d := by
    rcases h with h | h
    · unfold add_tool at h
      by_cases h1 : (alookup tm.tools name).isSome
      · rw [if_pos h1] at h
        exact absurd h (by simp)
      · rw [if_neg h1] at h
        split at h
        · exact absurd h (by simp)
        · cases h
          rfl
    · unfold update_tool at h
      by_cases h1 : (alookup tm.extended_tools name).isNone
      · rw [if_pos h1] at h
        exact absurd h (by simp)
      · rw [if_neg h1] at h
        split at h
        · exact absurd h (by simp)
        · cases h
          rfl
  rw [hver]
  unfold create_new_version
  exact ⟨alookup_aupsert_self _ _ _,
    fun other hne => alookup_aupsert_ne _ _ _ _ hne⟩

/-- The registry produced by adding `mytool` to the fresh registry with
hash function `fun _ => "H"` at timestamp `t0`. -/
def sampleAddedTM : ToolManagerSt :=
  { tools := initialToolManager.tools ++ [("mytool", .extended "mytool" "d")],
    extended_tools := [("mytool", .extended "mytool" "d")],
    tool_versions :=
      [("mytool",
        [{ version := "1", timestamp := "t0", checksum := "H",
           description := "d" }])] }

/-- C9 witness: a concrete successful `add_tool` run through the theorem:
the new log holds exactly version 1 with the checksum of the code, and an
unrelated name's log is unchanged. -/
theorem C9_version_append_witness :
    add_tool initialToolManager (fun _ => "H") "t0" "mytool" "d" "c" =
      .ok sampleAddedTM ∧
    alookup sampleAddedTM.tool_versions "mytool" =
      some [{ version := "1", timestamp := "t0", checksum := "H",
              description := "d" }] ∧
    alookup sampleAddedTM.tool_versions "other" =
      alookup initialToolManager.tool_versions "other" := by
  refine ⟨by rfl, ?_, ?_⟩
  · have h := (C9_version_append initialToolManager sampleAddedTM (fun _ => "H")
      "t0" "mytool" "d" "c" (Or.inl (by rfl))).1
    simpa using h
  · exact (C9_version_append initialToolManager sampleAddedTM (fun _ => "H")
      "t0" "mytool" "d" "c" (Or.inl (by rfl))).2 "other" (by decide)

/-! ### Claim C10 -/

theorem alookup_afilter_none {α β : Type} [DecidableEq α]
    (l : List (α × β)) (k j : α) (h : alookup l j = none) :
    alookup (afilter l k) j = none := by
  by_cases hjk : j = k
  · subst hjk
    exact alookup_afilter_self l j
  · rw [alookup_afilter_ne l k j hjk]
    exact h

theorem remove_terminal_terminals (m : TerminalManagerSt) (tid : Nat) :
    (remove_terminal m tid).1.terminals = afilter m.terminals tid := by
  unfold remove_terminal
  cases hp : alookup m.processes tid <;> rfl

theorem get_terminal_preserves_ne (m : TerminalManagerSt) (k j : Nat)
    (hne : j ≠ k) :
    alookup (get_terminal m k).2.1.terminals j = alookup m.terminals j := by
  unfold get_terminal
  split
  · rfl
  · split
    · split
      · rfl
      · rw [remove_terminal_terminals]
        exact alookup_afilter_ne _ _ _ hne
    · rfl

theorem get_terminal_none_mono (m : TerminalManagerSt) (k j : Nat)
    (h : alookup m.terminals j = none) :
    alookup (get_terminal m k).2.1.terminals j = none := by
  unfold get_terminal
  split
  · exact h
  · split
    · split
      · exact h
      · rw [remove_terminal_terminals]
        exact alookup_afilter_none _ _ _ h
    · exact h

theorem get_all_terminals_go_none (ks : List Nat) :
    ∀ (m : TerminalManagerSt) (tid : Nat),
      alookup m.terminals tid = none →
      alookup (get_all_terminals_go m ks).2.terminals tid = none := by
  induction ks with
  | nil => intro m tid h; exact h
  | cons k ks ih =>
    intro m tid h
    have h' := get_terminal_none_mono m k tid h
    unfold get_all_terminals_go
    cases hr : (get_terminal m k).1 with
    | none => exact ih _ tid h'
    | some info => exact ih _ tid h'

theorem get_all_terminals_go_culls (ks : List Nat) :
    ∀ (m : TerminalManagerSt) (tid : Nat) (info : TerminalInfoSt)
      (p : TerminalProcessSt),
      tid ∈ ks →
      alookup m.terminals tid = some info →
      info.process = some p →
      p.is_hot = false →
      alookup (get_all_terminals_go m ks).2.terminals tid = none := by
  induction ks with
  | nil => intro m tid info p hmem; cases hmem
  | cons k ks ih =>
    intro m tid info p hmem hlook hproc hhot
    by_cases hk : k = tid
    · subst hk
      have hgt : get_terminal m k =
          (none, (remove_terminal m k).1, (remove_terminal m k).2) := by
        unfold get_terminal
        simp [hlook, hproc, hhot]
      have hrm : alookup (remove_terminal m k).1.terminals k = none := by
        rw [remove_terminal_terminals]
        exact alookup_afilter_self _ _
      unfold get_all_terminals_go
      rw [hgt]
      exact get_all_terminals_go_none ks _ k hrm
    · have hmem' : tid ∈ ks := by
        cases hmem with
        | head => exact absurd rfl hk
        | tail _ h => exact h
      have hpres := get_terminal_preserves_ne m k tid (fun h => hk h.symm)
      have hlook' : alookup (get_terminal m k).2.1.terminals tid = some info := by
        rw [hpres]; exact hlook
      unfold get_all_terminals_go
      cases hr : (get_terminal m k).1 with
      | none => exact ih _ tid info p hmem' hlook' hproc hhot
      | some info' => exact ih _ tid info p hmem' hlook' hproc hhot

theorem alookup_mem_keys {α β : Type} [DecidableEq α]
    (l : List (α × β)) (k : α) (v : β) (h : alookup l k = some v) :
    k ∈ l.map (·.1) := by
  induction l with
  | nil => cases h
  | cons e rest ih =>
    by_cases he : e.1 = k
    · simp [he]
    · rw [alookup, if_neg he] at h
      simp [ih h]

/-- C10: looking up a terminal session is not read-only.  For every tracked
session whose process object exists with a false hot flag, `get_terminal`
returns `None`, removes the session from both tracking tables (calling
`terminate()` on its subprocess when the `Popen` handle exists), a repeated
lookup also returns `None`, and `get_all_terminals` performs the same
culling. -/
theorem C10_lookup_culls :
    ∀ (m : TerminalManagerSt) (tid : Nat) (info : TerminalInfoSt)
      (p : TerminalProcessSt),
      alookup m.terminals tid = some info →
      alookup m.processes tid = some p →
      info.process = some p →
      p.is_hot = false →
      (get_terminal m tid).1 = none ∧
      alookup (get_terminal m tid).2.1.terminals tid = none ∧
      alookup (get_terminal m tid).2.1.processes tid = none ∧
      (get_terminal m tid).2.2 = p.sub ∧
      (get_terminal (get_terminal m tid).2.1 tid).1 = none ∧
      alookup (get_all_terminals m).2.terminals tid = none := by
  intro m tid info p hterm hproc hpinfo hhot
  have hgt : get_terminal m tid =
      (none, (remove_terminal m tid).1, (remove_terminal m tid).2) := by
    unfold get_terminal
    simp [hterm, hpinfo, hhot]
  have hrm1 : alookup (remove_terminal m tid).1.terminals tid = none := by
    rw [remove_terminal_terminals]
    exact alookup_afilter_self _ _
  have hrm2 : alookup (remove_terminal m tid).1.processes tid = none := by
    unfold remove_terminal
    rw [hproc]
    exact alookup_afilter_self _ _
  have hrm3 : (remove_terminal m tid).2 = p.sub := by
    unfold remove_terminal
    rw [hproc]
  refine ⟨by rw [hgt], by rw [hgt]; exact hrm1, by rw [hgt]; exact hrm2,
    by rw [hgt]; exact hrm3, ?_, ?_⟩
  · rw [hgt]
    unfold get_terminal
    rw [hrm1]
  · exact get_all_terminals_go_culls (m.terminals.map (·.1)) m tid info p
      (alookup_mem_keys _ _ _ hterm) hterm hpinfo hhot

/-- C10 witness: the concrete one-session manager `sampleMgr` run through
the theorem: the cold session 0 is culled by lookup. -/
theorem C10_lookup_culls_witness :
    (get_terminal sampleMgr 0).1 = none ∧
    alookup (get_terminal sampleMgr 0).2.1.terminals 0 = none ∧
    alookup (get_terminal sampleMgr 0).2.1.processes 0 = none ∧
    (get_terminal sampleMgr 0).2.2 = sampleColdProc.sub ∧
    (get_terminal (get_terminal sampleMgr 0).2.1 0).1 = none ∧
    alookup (get_all_terminals sampleMgr).2.terminals 0 = none :=
  C10_lookup_culls sampleMgr 0 sampleColdInfo sampleColdProc
    (by rfl) (by rfl) (by rfl) (by rfl)

/-! ### Claim C8 -/

theorem pyFind_single_none (s : List Char) (c : Char) (h : c ∉ s)
    (start : Nat) : pyFind s [c] start = none := by
  unfold pyFind
  apply List.find?_eq_none.mpr
  intro j hj
  simp only [decide_eq_true_eq, not_and]
  intro _ hlen hpre
  rcases hpre with ⟨t, ht⟩
  have hmem : c ∈ s.drop j := by
    rw [← ht]
    exact List.mem_cons_self _ _
  have : c ∈ s := by
    have hsplit := List.take_append_drop j s
    rw [← hsplit]
    exact List.mem_append_right _ hmem
  exact h this

/-- C8 counterexample: the empty buffer (and likewise a whitespace-only
buffer) contains no `<` character, yet `parse_assistant_message` returns
the empty sequence, not a single TextBlock of the trimmed input. -/
theorem C8_counterexample :
    parse_assistant_message [] = [] ∧
    parse_assistant_message " ".toList = [] := by decide

/-- C8 (corrected): for every input buffer containing no `<` character
whose trimmed form is non-empty, parse returns a single TextBlock whose
text is the trimmed input and whose partial flag is true exactly when the
trimmed input does not end with a period; a buffer that trims to nothing
yields the empty sequence instead. -/
theorem C8_no_tag_single_text_block (s : List Char) (h : '<' ∉ s)
    (hne : pyStrip s ≠ []) :
    parse_assistant_message s =
      [.TextContent (pyStrip s) (!pyEndsWith (pyStrip s) ['.'])] := by
  unfold parse_assistant_message
  have hs : s ≠ [] := by
    rintro rfl
    exact hne rfl
  have hlen : 0 < s.length := List.length_pos.mpr hs
  unfold parseGo
  rw [dif_pos hlen]
  have hget : ¬ (s.get ⟨0, hlen⟩ = '<') := fun hg => h (hg ▸ s.get_mem _ _)
  rw [if_neg hget, pyFind_single_none s '<' h 0]
  simp only [List.drop_zero]
  rw [if_neg hne, pyStrip_idem]

/-- C8 witness: the corrected statement applied to the buffer `hello`. -/
theorem C8_no_tag_single_text_block_witness :
    ('<' ∉ "hello".toList) ∧ pyStrip "hello".toList ≠ [] ∧
    parse_assistant_message "hello".toList =
      [.TextContent (pyStrip "hello".toList)
        (!pyEndsWith (pyStrip "hello".toList) ['.'])] :=
  ⟨by decide, by decide,
    C8_no_tag_single_text_block "hello".toList (by decide) (by decide)⟩

/-! ### Filesystem lemmas for the diff engine claims -/

theorem parentsOf_cons (a : String) (rest : List String) :
    parentsOf (a :: rest) =
      (a :: rest).dropLast :: parentsOf ((a :: rest).dropLast) := by
  unfold parentsOf
  have hl : ((a :: rest).dropLast).length = rest.length := by
    simp
  rw [hl]
  rfl

theorem pathExists_of_dirExists (fs : FS) (q : PathSegs)
    (h : dirExists fs q = true) : pathExists fs q = true := by
  unfold pathExists
  rw [h, Bool.or_true]

theorem bor_elim {a b : Bool} (h : (a || b) = true) : a = true ∨ b = true := by
  cases a
  · right
    simpa using h
  · left
    rfl

theorem alookup_some_mem_pair {α β : Type} [DecidableEq α]
    (l : List (α × β)) (k : α) (v : β) (h : alookup l k = some v) :
    (k, v) ∈ l := by
  induction l with
  | nil => cases h
  | cons e rest ih =>
    by_cases he : e.1 = k
    · rw [alookup, if_pos he] at h
      cases h
      subst he
      rw [Prod.mk.eta]
      exact List.mem_cons_self _ _
    · rw [alookup, if_neg he] at h
      exact List.mem_cons_of_mem _ (ih h)

theorem WF_parent_dir (fs : FS) (hwf : fs.WF) (q : PathSegs)
    (h : dirExists fs q = true) : dirExists fs q.dropLast = true := by
  cases q with
  | nil => rfl
  | cons a rest =>
    have hmem : (a :: rest) ∈ fs.dirs := by
      simpa [dirExists] using h
    exact hwf.1 _ hmem

theorem WF_parent_path (fs : FS) (hwf : fs.WF) (q : PathSegs)
    (h : pathExists fs q = true) : dirExists fs q.dropLast = true := by
  unfold pathExists at h
  rcases bor_elim h with hf | hd
  · rcases Option.isSome_iff_exists.mp hf with ⟨c, hc⟩
    exact hwf.2 (q, c) (alookup_some_mem_pair _ _ _ hc)
  · exact WF_parent_dir fs hwf q hd

theorem dirExists_cons_dir (fs : FS) (q d : PathSegs)
    (h : dirExists fs d = true) :
    dirExists { fs with dirs := q :: fs.dirs } d = true := by
  unfold dirExists at h ⊢
  rcases bor_elim h with he | hm
  · rw [he, Bool.true_or]
  · have : d ∈ q :: fs.dirs := List.mem_cons_of_mem _ (of_decide_eq_true hm)
    simp [this]

theorem WF_cons_dir (fs : FS) (q : PathSegs) (hwf : fs.WF)
    (hq : dirExists fs q.dropLast = true) :
    FS.WF { fs with dirs := q :: fs.dirs } := by
  constructor
  · intro d hd
    cases hd with
    | head => exact dirExists_cons_dir fs q _ hq
    | tail _ hmem => exact dirExists_cons_dir fs q _ (hwf.1 _ hmem)
  · intro e he
    exact dirExists_cons_dir fs q _ (hwf.2 _ he)

theorem createDirsAux_all_exist (fs : FS) (hwf : fs.WF) :
    ∀ (n : Nat) (q : PathSegs), q.length ≤ n → dirExists fs q = true →
      createDirsAux fs (parentsOf q) = .ok (fs, []) := by
  intro n
  induction n with
  | zero =>
    intro q hlen _
    have hq : q = [] := List.length_eq_zero.mp (Nat.le_zero.mp hlen)
    subst hq
    rfl
  | succ n ih =>
    intro q hlen hd
    cases q with
    | nil => rfl
    | cons a rest =>
      rw [parentsOf_cons]
      have hd' : dirExists fs ((a :: rest).dropLast) = true :=
        WF_parent_dir fs hwf _ hd
      unfold createDirsAux
      rw [if_pos (pathExists_of_dirExists fs _ hd')]
      apply ih
      · simp only [List.dropLast_cons_of_ne_nil, List.length_dropLast,
          List.length_cons] at hlen ⊢
        omega
      · exact hd'

theorem createDirsAux_parents_exist (fs : FS) (hwf : fs.WF) (q : PathSegs)
    (h : pathExists fs q = true) :
    createDirsAux fs (parentsOf q) = .ok (fs, []) := by
  cases q with
  | nil => rfl
  | cons a rest =>
    rw [parentsOf_cons]
    have hd : dirExists fs ((a :: rest).dropLast) = true :=
      WF_parent_path fs hwf _ h
    unfold createDirsAux
    rw [if_pos (pathExists_of_dirExists fs _ hd)]
    exact createDirsAux_all_exist fs hwf _ _ le_rfl hd

theorem create_dirs_cases (fs : FS) (hwf : fs.WF) (p : PathSegs)
    (fs₁ : FS) (created : List PathSegs)
    (h : create_directories_for_file fs p = .ok (fs₁, created)) :
    (created = [] ∧ fs₁ = fs) ∨
    (created = [p.dropLast] ∧ pathExists fs p.dropLast = false ∧
      fs₁ = { fs with dirs := p.dropLast :: fs.dirs }) := by
  cases p with
  | nil =>
    left
    cases h
    exact ⟨rfl, rfl⟩
  | cons a rest =>
    unfold create_directories_for_file at h
    rw [parentsOf_cons] at h
    by_cases hex : pathExists fs ((a :: rest).dropLast) = true
    · unfold createDirsAux at h
      rw [if_pos hex, createDirsAux_parents_exist fs hwf _ hex] at h
      cases h
      left
      exact ⟨rfl, rfl⟩
    · have hex' : pathExists fs ((a :: rest).dropLast) = false :=
        Bool.eq_false_iff.mpr hex
      unfold createDirsAux at h
      rw [if_neg hex] at h
      by_cases hpar : dirExists fs (((a :: rest).dropLast).dropLast) = true
      · have hmk : mkdir fs ((a :: rest).dropLast) =
            .ok { fs with dirs := (a :: rest).dropLast :: fs.dirs } := by
          unfold mkdir
          rw [if_neg hex, if_pos hpar]
        have hwf' := WF_cons_dir fs ((a :: rest).dropLast) hwf hpar
        have hq' : dirExists { fs with dirs := (a :: rest).dropLast :: fs.dirs }
            ((a :: rest).dropLast) = true := by
          simp [dirExists]
        have hcd2 := createDirsAux_all_exist _ hwf'
          ((a :: rest).dropLast).length _ le_rfl hq'
        simp only [hmk, hcd2] at h
        cases h
        right
        exact ⟨rfl, hex', rfl⟩
      · have hmk : mkdir fs ((a :: rest).dropLast) =
            .error (.parentMissing ((a :: rest).dropLast)) := by
          unfold mkdir
          rw [if_neg hex, if_neg hpar]
        simp only [hmk] at h
        exact absurd h (by simp)

theorem pathExists_false_parts (fs : FS) (p : PathSegs)
    (h : pathExists fs p = false) :
    alookup fs.files p = none ∧ dirExists fs p = false := by
  unfold pathExists at h
  rcases Bool.or_eq_false_iff.mp h with ⟨hf, hd⟩
  exact ⟨Option.not_isSome_iff_eq_none.mp (by rw [hf]; exact Bool.false_ne_true), hd⟩

theorem dirExists_false_parts (fs : FS) (q : PathSegs)
    (h : dirExists fs q = false) : q ≠ [] ∧ q ∉ fs.dirs := by
  unfold dirExists at h
  rcases Bool.or_eq_false_iff.mp h with ⟨he, hm⟩
  constructor
  · intro hq
    rw [hq] at he
    cases he
  · intro hmem
    rw [decide_eq_true hmem] at hm
    cases hm

theorem dropLast_ne_self (q : PathSegs) (h : q ≠ []) : q.dropLast ≠ q := by
  intro he
  have := congrArg List.length he
  rw [List.length_dropLast] at this
  have hp : 0 < q.length := List.length_pos.mpr h
  omega

theorem dvpOpen_modify_eval (dvp : DiffViewProviderSt) (fs : FS)
    (rel : PathSegs) (c : List Char)
    (hmod : dvp.edit_type = some "modify") (hwf : fs.WF)
    (hc : alookup fs.files (dvp.cwd ++ rel) = some c) :
    dvpOpen dvp fs rel =
      .ok ({ dvp with
               rel_path := some rel, is_editing := true,
               original_content := some c, created_dirs := [],
               active_diff_editor := true, controllers := true,
               streamed_lines := [] }, fs) := by
  have hbe : (dvp.edit_type == some "modify") = true := by
    rw [hmod]
    rfl
  have hpe : pathExists fs (dvp.cwd ++ rel) = true := by
    unfold pathExists
    rw [hc]
    rfl
  have hcd : create_directories_for_file fs (dvp.cwd ++ rel) = .ok (fs, []) := by
    unfold create_directories_for_file
    exact createDirsAux_parents_exist fs hwf _ hpe
  have hrd : readFile fs (dvp.cwd ++ rel) = .ok c := by
    unfold readFile
    rw [hc]
  unfold dvpOpen
  simp only [hbe, if_true, Bool.not_true, if_false, hrd, hcd, bind,
    Except.bind, pure, Except.pure]
  rfl

theorem dvpOpen_modify_inv (dvp : DiffViewProviderSt) (fs : FS)
    (rel : PathSegs) (dvp' : DiffViewProviderSt) (fs' : FS)
    (hmod : dvp.edit_type = some "modify") (hwf : fs.WF)
    (h : dvpOpen dvp fs rel = .ok (dvp', fs')) :
    ∃ c, alookup fs.files (dvp.cwd ++ rel) = some c ∧
      dvp' = { dvp with
                 rel_path := some rel, is_editing := true,
                 original_content := some c, created_dirs := [],
                 active_diff_editor := true, controllers := true,
                 streamed_lines := [] } ∧
      fs' = fs := by
  have hbe : (dvp.edit_type == some "modify") = true := by
    rw [hmod]
    rfl
  cases hc : alookup fs.files (dvp.cwd ++ rel) with
  | none =>
    have herr : dvpOpen dvp fs rel = .error (.fileNotFound (dvp.cwd ++ rel)) := by
      have hrd : readFile fs (dvp.cwd ++ rel) =
          .error (.fileNotFound (dvp.cwd ++ rel)) := by
        unfold readFile
        rw [hc]
      unfold dvpOpen
      simp only [hbe, if_true, hrd, bind, Except.bind]
    rw [herr] at h
    exact absurd h (by simp)
  | some c =>
    rw [dvpOpen_modify_eval dvp fs rel c hmod hwf hc] at h
    cases h
    exact ⟨c, rfl, rfl, rfl⟩

theorem dvpOpen_create_inv (dvp : DiffViewProviderSt) (fs : FS)
    (rel : PathSegs) (dvp' : DiffViewProviderSt) (fs' : FS)
    (hmod : dvp.edit_type ≠ some "modify")
    (h : dvpOpen dvp fs rel = .ok (dvp', fs')) :
    ∃ fs₁ created,
      create_directories_for_file fs (dvp.cwd ++ rel) = .ok (fs₁, created) ∧
      writeFile fs₁ (dvp.cwd ++ rel) [] = .ok fs' ∧
      dvp' = { dvp with
                 rel_path := some rel, is_editing := true,
                 original_content := some [], created_dirs := created,
                 active_diff_editor := true, controllers := true,
                 streamed_lines := [] } := by
  have hbe : (dvp.edit_type == some "modify") = false := by
    cases hbv : (dvp.edit_type == some "modify") with
    | false => rfl
    | true => exact absurd (eq_of_beq hbv) hmod
  unfold dvpOpen at h
  simp only [hbe, if_neg Bool.false_ne_true, Bool.not_false, if_pos,
    bind, Except.bind, pure, Except.pure] at h
  cases hcd : create_directories_for_file fs (dvp.cwd ++ rel) with
  | error e =>
    rw [hcd] at h
    exact absurd h (by simp)
  | ok pr =>
    obtain ⟨fs₁, created⟩ := pr
    simp only [hcd] at h
    cases hw : writeFile fs₁ (dvp.cwd ++ rel) [] with
    | error e =>
      simp only [hw] at h
      exact absurd h (by simp)
    | ok fs₂ =>
      simp only [hw] at h
      cases h
      exact ⟨fs₁, created, rfl, hw, rfl⟩

theorem writeFile_inv (fs : FS) (p : PathSegs) (c : List Char) (fs' : FS)
    (h : writeFile fs p c = .ok fs') :
    fs' = { fs with files := aupsert fs.files p c } ∧
    p ∉ fs.dirs ∧ dirExists fs p.dropLast = true := by
  unfold writeFile at h
  by_cases h1 : decide (p ∈ fs.dirs) = true
  · rw [if_pos h1] at h
    exact absurd h (by simp)
  · rw [if_neg h1] at h
    by_cases h2 : dirExists fs p.dropLast = true
    · rw [if_pos h2] at h
      cases h
      exact ⟨rfl, fun hm => h1 (decide_eq_true hm), h2⟩
    · rw [if_neg h2] at h
      exact absurd h (by simp)

theorem isEmptyDir_fresh (fs : FS) (hwf : fs.WF) (q : PathSegs)
    (hdq : dirExists fs q = false) :
    isEmptyDir { files := fs.files, dirs := q :: fs.dirs } q = true := by
  obtain ⟨hqne, _⟩ := dirExists_false_parts fs q hdq
  unfold isEmptyDir
  have hf : fs.files.any (fun e => decide (e.1 ≠ [] ∧ e.1.dropLast = q)) = false := by
    rw [List.any_eq_false]
    intro e he
    simp only [decide_eq_true_eq, not_and]
    intro _ hdl
    have hde := hwf.2 e he
    rw [hdl, hdq] at hde
    cases hde
  have hd : (q :: fs.dirs).any (fun d => decide (d ≠ [] ∧ d.dropLast = q)) = false := by
    rw [List.any_eq_false]
    intro d hdm
    simp only [decide_eq_true_eq, not_and]
    intro _ hdl
    cases hdm with
    | head => exact dropLast_ne_self q hqne hdl
    | tail _ hmem =>
      have hde := hwf.1 d hmem
      rw [hdl, hdq] at hde
      cases hde
  rw [hf, hd]
  rfl

/-! ### Claim C3 (amended theorem) -/

/-- C3 (corrected): `open` determines the edit kind from the session's
pre-set `edit_type` attribute, not by checking the disk.  When `edit_type`
is `"modify"` the session is Modify: the original content snapshot is the
file's current content, no directory is created and the filesystem is
untouched.  Otherwise the session is Create — even if the target already
exists on disk: original content is snapshotted as the empty string, an
empty placeholder file is written, and exactly the directories newly
created (each previously non-existent) are recorded in the
created-directories list, in creation order. -/
theorem C3_open_kind_from_attribute :
    ∀ (dvp : DiffViewProviderSt) (fs : FS) (rel : PathSegs)
      (dvp' : DiffViewProviderSt) (fs' : FS),
      fs.WF →
      dvpOpen dvp fs rel = .ok (dvp', fs') →
      ((dvp.edit_type = some "modify" →
        ∃ c, alookup fs.files (dvp.cwd ++ rel) = some c ∧
          dvp'.original_content = some c ∧ fs' = fs ∧ dvp'.created_dirs = []) ∧
       (dvp.edit_type ≠ some "modify" →
        dvp'.original_content = some [] ∧
        alookup fs'.files (dvp.cwd ++ rel) = some [] ∧
        fs'.dirs = dvp'.created_dirs ++ fs.dirs ∧
        ∀ d ∈ dvp'.created_dirs, pathExists fs d = false)) := by
  intro dvp fs rel dvp' fs' hwf hopen
  constructor
  · intro hmod
    obtain ⟨c, hc, hdvp, hfs⟩ :=
      dvpOpen_modify_inv dvp fs rel dvp' fs' hmod hwf hopen
    subst hdvp
    exact ⟨c, hc, rfl, hfs, rfl⟩
  · intro hmod
    obtain ⟨fs₁, created, hcd, hw, hdvp⟩ :=
      dvpOpen_create_inv dvp fs rel dvp' fs' hmod hopen
    obtain ⟨hfs', _, _⟩ := writeFile_inv _ _ _ _ hw
    subst hdvp
    subst hfs'
    refine ⟨rfl, alookup_aupsert_self _ _ _, ?_, ?_⟩
    · rcases create_dirs_cases fs hwf _ _ _ hcd with ⟨hc1, hc2⟩ | ⟨hc1, _, hc3⟩
      · subst hc1
        subst hc2
        rfl
      · subst hc1
        subst hc3
        rfl
    · rcases create_dirs_cases fs hwf _ _ _ hcd with ⟨hc1, _⟩ | ⟨hc1, hc2, _⟩
      · subst hc1
        intro d hd
        cases hd
      · subst hc1
        intro d hd
        cases hd with
        | head => exact hc2
        | tail _ hmem => cases hmem

/-- C3 witness: the corrected statement's Create branch applied to the
concrete workspace `sampleFsW`: `open` of `sub/f.txt` with `edit_type`
unset snapshots empty original content, writes the placeholder, and
records exactly the one newly created directory. -/
theorem C3_open_kind_from_attribute_witness :
    sampleFsW.WF ∧
    (initDiffViewProvider ["w"]).edit_type ≠ some "modify" ∧
    dvpOpen (initDiffViewProvider ["w"]) sampleFsW ["sub", "f.txt"] =
      .ok (sampleCreatedDvp, sampleCreatedFs) ∧
    sampleCreatedDvp.original_content = some [] ∧
    alookup sampleCreatedFs.files (["w"] ++ ["sub", "f.txt"]) = some [] ∧
    sampleCreatedFs.dirs = sampleCreatedDvp.created_dirs ++ sampleFsW.dirs ∧
    ∀ d ∈ sampleCreatedDvp.created_dirs, pathExists sampleFsW d = false := by
  have h := (C3_open_kind_from_attribute (initDiffViewProvider ["w"]) sampleFsW
    ["sub", "f.txt"] sampleCreatedDvp sampleCreatedFs (by decide) (by rfl)).2
    (by decide)
  exact ⟨by decide, by decide, by rfl, h.1, h.2.1, h.2.2.1, h.2.2.2⟩

/-! ### Claim C4 -/

/-- C4: for every Create session (`edit_type` not `"modify"`), `open` on a
non-existent path followed by `revert_changes` restores the filesystem to
exactly its pre-`open` state: the placeholder file is deleted and the
directories the session created (and no pre-existing ones) are removed in
reverse creation order, each only when empty. -/
theorem C4_create_revert_restores :
    ∀ (dvp : DiffViewProviderSt) (fs : FS) (rel : PathSegs)
      (dvp₁ : DiffViewProviderSt) (fs₁ : FS),
      fs.WF →
      dvp.edit_type ≠ some "modify" →
      pathExists fs (dvp.cwd ++ rel) = false →
      dvpOpen dvp fs rel = .ok (dvp₁, fs₁) →
      revert_changes dvp₁ fs₁ = .ok (dvpReset dvp₁, fs) := by
  intro dvp fs rel dvp₁ fs₁ hwf hmod hne hopen
  obtain ⟨fsA, created, hcd, hw, hdvp⟩ :=
    dvpOpen_create_inv dvp fs rel dvp₁ fs₁ hmod hopen
  obtain ⟨hfs₁, _, _⟩ := writeFile_inv _ _ _ _ hw
  obtain ⟨hfnone, _⟩ := pathExists_false_parts fs _ hne
  have hbe : (dvp.edit_type == some "modify") = false := by
    cases hbv : (dvp.edit_type == some "modify") with
    | false => rfl
    | true => exact absurd (eq_of_beq hbv) hmod
  rcases create_dirs_cases fs hwf _ _ _ hcd with ⟨hc1, hc2⟩ | ⟨hc1, hc2, hc3⟩
  · subst hc1
    subst hdvp
    have hfs₁' : fs₁ = { files := aupsert fs.files (dvp.cwd ++ rel) [],
                         dirs := fs.dirs } := by
      rw [hfs₁, hc2]
    subst hfs₁'
    have hun : unlink { files := aupsert fs.files (dvp.cwd ++ rel) [],
                        dirs := fs.dirs }
        (dvp.cwd ++ rel) = .ok { files := fs.files, dirs := fs.dirs } := by
      unfold unlink
      rw [alookup_aupsert_self, afilter_aupsert_cancel _ _ _ hfnone,
        afilter_eq_self _ _ hfnone]
      rfl
    unfold revert_changes
    simp only [hbe, if_neg Bool.false_ne_true, hun, bind, Except.bind, pure,
      Except.pure]
    rfl
  · subst hc1
    subst hdvp
    have hfs₁' : fs₁ = { files := aupsert fs.files (dvp.cwd ++ rel) [],
                         dirs := (dvp.cwd ++ rel).dropLast :: fs.dirs } := by
      rw [hfs₁, hc3]
    subst hfs₁'
    have hdq : dirExists fs ((dvp.cwd ++ rel).dropLast) = false :=
      (pathExists_false_parts fs _ hc2).2
    obtain ⟨hqne, hqnm⟩ := dirExists_false_parts fs _ hdq
    have hemp := isEmptyDir_fresh fs hwf _ hdq
    have hun : unlink
        { files := aupsert fs.files (dvp.cwd ++ rel) [],
          dirs := (dvp.cwd ++ rel).dropLast :: fs.dirs } (dvp.cwd ++ rel) =
        .ok { files := fs.files,
              dirs := (dvp.cwd ++ rel).dropLast :: fs.dirs } := by
      unfold unlink
      rw [alookup_aupsert_self, afilter_aupsert_cancel _ _ _ hfnone,
        afilter_eq_self _ _ hfnone]
      rfl
    have hpe2 : pathExists
        { files := fs.files, dirs := (dvp.cwd ++ rel).dropLast :: fs.dirs }
        ((dvp.cwd ++ rel).dropLast) = true := by
      unfold pathExists dirExists
      simp
    have hfilter : ((dvp.cwd ++ rel).dropLast :: fs.dirs).filter
        (fun x => decide (x ≠ (dvp.cwd ++ rel).dropLast)) = fs.dirs := by
      rw [List.filter_cons, if_neg (by simp)]
      apply List.filter_eq_self.mpr
      intro x hx
      exact decide_eq_true (fun hxq => hqnm (hxq ▸ hx))
    have hwalk : removeDirsWalk
        { files := fs.files, dirs := (dvp.cwd ++ rel).dropLast :: fs.dirs }
        [(dvp.cwd ++ rel).dropLast] = fs := by
      unfold removeDirsWalk
      rw [hpe2, hemp]
      show removeDirsWalk (rmdir _ _) [] = fs
      unfold rmdir removeDirsWalk
      rw [hfilter]
    unfold revert_changes
    simp only [hbe, if_neg Bool.false_ne_true, hun, bind, Except.bind, pure,
      Except.pure]
    rw [show ([(dvp.cwd ++ rel).dropLast]).reverse =
      [(dvp.cwd ++ rel).dropLast] from rfl, hwalk]

/-- C4 witness: the concrete Create session on workspace `w`: reverting the
`open` of `sub/f.txt` restores exactly `sampleFsW`. -/
theorem C4_create_revert_restores_witness :
    sampleFsW.WF ∧
    pathExists sampleFsW (["w"] ++ ["sub", "f.txt"]) = false ∧
    revert_changes sampleCreatedDvp sampleCreatedFs =
      .ok (dvpReset sampleCreatedDvp, sampleFsW) :=
  ⟨by decide, by decide,
    C4_create_revert_restores (initDiffViewProvider ["w"]) sampleFsW
      ["sub", "f.txt"] sampleCreatedDvp sampleCreatedFs (by decide) (by decide)
      (by decide) (by rfl)⟩

/-! ### Claim C7 (amended theorem) -/

/-- C7 (corrected): for every diff session (open, controllers and editor
set) and every sequence of `update` calls whose final accumulated content
is non-empty, the final `update` records that content and `save_changes`
writes it to the target file — the file on disk is byte-identical to the
final content — and the result reports that same content as the content
used.  When the final accumulated content is the empty string,
`save_changes` instead takes the Python-falsy early return, writing
nothing and reporting no content. -/
theorem C7_save_roundtrip :
    ∀ (dvp : DiffViewProviderSt) (fs : FS) (rp : PathSegs) (c : List Char),
      dvp.rel_path = some rp →
      dvp.controllers = true →
      dvp.active_diff_editor = true →
      c ≠ [] →
      (dvp.cwd ++ rp) ∉ fs.dirs →
      dirExists fs (dvp.cwd ++ rp).dropLast = true →
      dvpUpdate dvp c true =
        .ok { dvp with new_content := some c, streamed_lines := pySplitNl c } ∧
      save_changes
          { dvp with new_content := some c, streamed_lines := pySplitNl c }
          fs =
        .ok ({ fs with files := aupsert fs.files (dvp.cwd ++ rp) c },
             ⟨some "", none, some c⟩) ∧
      alookup (aupsert fs.files (dvp.cwd ++ rp) c) (dvp.cwd ++ rp) = some c := by
  intro dvp fs rp c hrp hctl hed hc hnd hdir
  refine ⟨?_, ?_, alookup_aupsert_self _ _ _⟩
  · unfold dvpUpdate
    rw [if_neg]
    · rfl
    · rintro (h | h)
      · rw [hrp] at h
        cases h
      · rw [hctl] at h
        cases h
  · have hw : writeFile fs (dvp.cwd ++ rp) c =
        .ok { fs with files := aupsert fs.files (dvp.cwd ++ rp) c } := by
      unfold writeFile
      rw [if_neg (fun hh => hnd (of_decide_eq_true hh)), if_pos hdir]
    unfold save_changes
    simp only [hrp, hed, if_neg hc, hw, bind, Except.bind, pure, Except.pure]

/-- C7 witness: the corrected statement applied to the concrete modify
session on `f` with final content `new`. -/
theorem C7_save_roundtrip_witness :
    dvpUpdate sampleModifyDvp "new".toList true =
      .ok { sampleModifyDvp with
              new_content := some "new".toList,
              streamed_lines := pySplitNl "new".toList } ∧
    save_changes
        { sampleModifyDvp with
            new_content := some "new".toList,
            streamed_lines := pySplitNl "new".toList }
        sampleFsOld =
      .ok ({ sampleFsOld with
               files := aupsert sampleFsOld.files
                 (sampleModifyDvp.cwd ++ ["f"]) "new".toList },
           ⟨some "", none, some "new".toList⟩) ∧
    alookup (aupsert sampleFsOld.files (sampleModifyDvp.cwd ++ ["f"]) "new".toList)
      (sampleModifyDvp.cwd ++ ["f"]) = some "new".toList :=
  C7_save_roundtrip sampleModifyDvp sampleFsOld ["f"] "new".toList (by rfl)
    (by rfl) (by rfl) (by decide) (by decide) (by rfl)

end DeepseekPlatform
